import Mathlib

/-!
Verification of the redis-basic instrumentation layer
(`0x02-redis_basic/exercise.py` and `0x02-redis_basic/web.py`).

Shallow embedding conventions:
* Redis byte strings are modelled as Lean `String` (the program only ever
  stores UTF-8 text or its own `str(...)` renderings).
* A Redis database is a partial map from keys to typed values.  Redis string
  values keep their encoding: `rstr` for raw strings, `rint` for
  integer-encoded strings (the encoding `INCR` maintains); `rlist` for lists.
* Fallible Redis round-trips return `Except PyErr`; a round-trip that cannot
  reach the server is injected through the `StopAt` parameter of a call,
  modelling `StoreUnavailable` failures at each of the four round-trips a
  decorated `Cache.store` invocation performs.
* Python values accepted by `Cache.store` (`Union[str, bytes, int, float]`)
  are the inductive `PyVal`; a float is carried as its decimal rendering,
  which is all the program ever observes of it.
-/

/-- Python values accepted by `Cache.store` and produced by `Cache.get`
converters.  `vfloat` carries the decimal text of the float, which is exactly
what `redis-py` serialises and what the program observes. -/
inductive PyVal where
  | vstr (s : String)
  | vbytes (b : String)
  | vint (n : Int)
  | vfloat (f : String)
  deriving DecidableEq

/-- Errors surfaced by the embedded operations: a Redis WRONGTYPE reply,
a Python ValueError (failed integer conversion), and an unreachable store. -/
inductive PyErr where
  | wrongType
  | valueError
  | storeUnavailable
  deriving DecidableEq

instance {ε α : Type} [DecidableEq ε] [DecidableEq α] : DecidableEq (Except ε α) :=
  fun x y =>
  match x, y with
  | .error a, .error b =>
    if h : a = b then isTrue (by rw [h]) else isFalse (fun he => by cases he; exact h rfl)
  | .ok a, .ok b =>
    if h : a = b then isTrue (by rw [h]) else isFalse (fun he => by cases he; exact h rfl)
  | .error _, .ok _ => isFalse (fun he => by cases he)
  | .ok _, .error _ => isFalse (fun he => by cases he)

/-- A Redis value: a raw string, an integer-encoded string (the encoding that
`INCR` creates and maintains), or a list. -/
inductive RVal where
  | rstr (s : String)
  | rint (n : Int)
  | rlist (l : List String)
  deriving DecidableEq

/-- A Redis database: keys to values, `none` meaning the key is absent. -/
def RedisDB : Type := String → Option RVal

/-- The database right after `Cache.__init__` runs `flushdb`: every key absent. -/
def flushed : RedisDB := fun _ => none

/-- Point update of a database. -/
def updateDB (db : RedisDB) (k : String) (v : RVal) : RedisDB :=
  fun x => if x = k then some v else db x

/-- Value of a decimal digit character, `none` for non-digits. -/
def digitVal (c : Char) : Option Nat :=
  if c.isDigit then some (c.toNat - 48) else none

/-- Parse a nonempty all-digit character list as a natural number. -/
def parseDigits (cs : List Char) : Option Nat :=
  if cs = [] then none
  else cs.foldl
    (fun acc c =>
      match acc, digitVal c with
      | some a, some d => some (a * 10 + d)
      | _, _ => none)
    (some 0)

/-- Python `int(bytes)`: strip surrounding whitespace, optional sign, then a
nonempty run of decimal digits; anything else raises ValueError (here `none`).
(Digit-group underscores accepted by Python are not modelled; no value in the
program contains them.) -/
def parsePyInt (s : String) : Option Int :=
  let cs := (((s.toList.dropWhile Char.isWhitespace).reverse.dropWhile
    Char.isWhitespace).reverse)
  match cs with
  | [] => none
  | c :: rest =>
    if c = Char.ofNat 45 then (parseDigits rest).map (fun n => -(n : Int))
    else if c = Char.ofNat 43 then (parseDigits rest).map (fun n => (n : Int))
    else (parseDigits (c :: rest)).map (fun n => (n : Int))

/-- Redis `GET`: bytes of a string value (integer-encoded values read back as
their decimal rendering), `none` if absent, WRONGTYPE on a list. -/
def rget (db : RedisDB) (k : String) : Except PyErr (Option String) :=
  match db k with
  | none => .ok none
  | some (.rstr s) => .ok (some s)
  | some (.rint n) => .ok (some (toString n))
  | some (.rlist _) => .error .wrongType

/-- Redis `SET`: overwrites whatever was at the key with a raw string. -/
def rset (db : RedisDB) (k v : String) : RedisDB :=
  updateDB db k (.rstr v)

/-- Redis `INCR`: absent counts as 0; an integer-encoded value is bumped; a
raw string is parsed as an integer first (error if it is not one); a list is
a WRONGTYPE error. -/
def rincr (db : RedisDB) (k : String) : Except PyErr (RedisDB × Int) :=
  match db k with
  | none => .ok (updateDB db k (.rint 1), 1)
  | some (.rint n) => .ok (updateDB db k (.rint (n + 1)), n + 1)
  | some (.rstr s) =>
    match parsePyInt s with
    | some n => .ok (updateDB db k (.rint (n + 1)), n + 1)
    | none => .error .valueError
  | some (.rlist _) => .error .wrongType

/-- Redis `RPUSH`: creates a one-element list at an absent key, appends to an
existing list, WRONGTYPE on a string value. -/
def rpush (db : RedisDB) (k v : String) : Except PyErr RedisDB :=
  match db k with
  | none => .ok (updateDB db k (.rlist [v]))
  | some (.rlist l) => .ok (updateDB db k (.rlist (l ++ [v])))
  | some (.rstr _) => .error .wrongType
  | some (.rint _) => .error .wrongType

/-- Redis `LRANGE key 0 -1`: the whole list; an absent key reads as the empty
list; WRONGTYPE on a string value. -/
def lrangeAll (db : RedisDB) (k : String) : Except PyErr (List String) :=
  match db k with
  | none => .ok []
  | some (.rlist l) => .ok l
  | some (.rstr _) => .error .wrongType
  | some (.rint _) => .error .wrongType

/-- A single apostrophe character, as used by Python `repr`. -/
def pyQuote : String := String.singleton (Char.ofNat 39)

/-- Python `repr` of a stored value (as it appears inside `str(args)`).
String escaping subtleties of `repr` are not modelled; no claim depends on
them. -/
def pyRepr : PyVal → String
  | .vstr s => pyQuote ++ s ++ pyQuote
  | .vbytes b => "b" ++ pyQuote ++ b ++ pyQuote
  | .vint n => toString n
  | .vfloat f => f

/-- Python `str(args)` for the one-element positional tuple `(data,)` that a
`Cache.store` call receives. -/
def strArgs (v : PyVal) : String := "(" ++ pyRepr v ++ ",)"

/-- The bytes `redis-py` sends for a stored value: strings and bytes verbatim
(UTF-8), ints and floats as their decimal text. -/
def toBytes : PyVal → String
  | .vstr s => s
  | .vbytes b => b
  | .vint n => toString n
  | .vfloat f => f

/-- `Cache.store.__qualname__`, the operation identity both decorators use. -/
def storeQualname : String := "Cache.store"

/-- Key of the inputs history list for `Cache.store`. -/
def inputsKey : String := storeQualname ++ ":inputs"

/-- Key of the outputs history list for `Cache.store`. -/
def outputsKey : String := storeQualname ++ ":outputs"

/-- Where, if anywhere, a decorated `Cache.store` invocation is cut short by
an unreachable store: at the counter `INCR`, at the inputs `RPUSH`, at the
body's `SET`, at the outputs `RPUSH`, or nowhere (`complete`). -/
inductive StopAt where
  | atIncr
  | atPushInput
  | atSet
  | atPushOutput
  | complete
  deriving DecidableEq

/-- One invocation of the decorated `Cache.store`: the data argument, the
fresh identifier `uuid.uuid4()` produces for it, and where (if anywhere) the
backing store fails during the call. -/
structure Call where
  data : PyVal
  uuid : String
  stop : StopAt
  deriving DecidableEq

/-- A generated identifier never collides with the three instrumentation
keys (a `uuid4` string cannot equal them). -/
def freshId (u : String) : Prop :=
  u ≠ storeQualname ∧ u ≠ inputsKey ∧ u ≠ outputsKey

instance (u : String) : Decidable (freshId u) := by
  unfold freshId; infer_instance

/-- One invocation of `count_calls(call_history(Cache.store))`, faithful to
the wrappers' order: `INCR` the counter at the qualname, `RPUSH str(args)` to
the inputs list, run the body (`SET uuid data`, returning `uuid`), `RPUSH`
the output to the outputs list, return the output.  Any round-trip may fail
(`StopAt`), and an error from any round-trip aborts the call and propagates. -/
def storeCall (db : RedisDB) (c : Call) : RedisDB × Except PyErr String :=
  if c.stop = .atIncr then (db, .error .storeUnavailable) else
  match rincr db storeQualname with
  | .error e => (db, .error e)
  | .ok (db1, _) =>
    if c.stop = .atPushInput then (db1, .error .storeUnavailable) else
    match rpush db1 inputsKey (strArgs c.data) with
    | .error e => (db1, .error e)
    | .ok db2 =>
      if c.stop = .atSet then (db2, .error .storeUnavailable) else
      let db3 := rset db2 c.uuid (toBytes c.data)
      if c.stop = .atPushOutput then (db3, .error .storeUnavailable) else
      match rpush db3 outputsKey c.uuid with
      | .error e => (db3, .error e)
      | .ok db4 => (db4, .ok c.uuid)

/-- The database after a sequence of decorated `Cache.store` invocations. -/
def runCalls (db : RedisDB) : List Call → RedisDB
  | [] => db
  | c :: cs => runCalls (storeCall db c).1 cs

/-- `Cache.get`: read raw bytes; absent is `none`, not an error; with a
converter supplied, apply it and let its failure propagate. -/
def Cache.get (db : RedisDB) (key : String)
    (fn : Option (String → Except PyErr PyVal)) : Except PyErr (Option PyVal) :=
  match rget db key with
  | .error e => .error e
  | .ok none => .ok none
  | .ok (some data) =>
    match fn with
    | none => .ok (some (.vbytes data))
    | some f =>
      match f data with
      | .ok v => .ok (some v)
      | .error e => .error e

/-- The converter `Cache.get_str` passes: UTF-8 decode (identity on our
byte model). -/
def strConv (d : String) : Except PyErr PyVal := .ok (.vstr d)

/-- The converter `Cache.get_int` passes: Python `int(d)`, raising ValueError
on non-numeric bytes. -/
def intConv (d : String) : Except PyErr PyVal :=
  match parsePyInt d with
  | some n => .ok (.vint n)
  | none => .error .valueError

/-- `Cache.get_str`. -/
def Cache.get_str (db : RedisDB) (key : String) : Except PyErr (Option PyVal) :=
  Cache.get db key (some strConv)

/-- `Cache.get_int`. -/
def Cache.get_int (db : RedisDB) (key : String) : Except PyErr (Option PyVal) :=
  Cache.get db key (some intConv)

/-- The integer value of the invocation counter as stored at the qualname
key (0 when absent). -/
def counterNat (db : RedisDB) : Nat :=
  match db storeQualname with
  | some (.rint n) => n.toNat
  | some (.rstr s) => ((parsePyInt s).getD 0).toNat
  | _ => 0

/-- Length of the list stored at a key (0 when absent or not a list). -/
def listLen (db : RedisDB) (k : String) : Nat :=
  match db k with
  | some (.rlist l) => l.length
  | _ => 0

/-- The list stored at a key (empty when absent or not a list). -/
def listAt (db : RedisDB) (k : String) : List String :=
  match db k with
  | some (.rlist l) => l
  | _ => []

/-- The lines `replay` prints: the summary line counting `len(inputs)`, then
one line per `zip(inputs, outputs)` pair. -/
def replayLines (qn : String) (ins outs : List String) : List String :=
  (qn ++ " was called " ++ toString ins.length ++ " times:") ::
    List.zipWith (fun i o => qn ++ "(*" ++ i ++ ") -> " ++ o) ins outs

/-- `replay`: reads the two history lists with `LRANGE 0 -1` and renders the
transcript.  It performs no writes, so the database component of the result
is the input database unchanged. -/
def replay (db : RedisDB) (qn : String) :
    RedisDB × Except PyErr (List String) :=
  (db,
    match lrangeAll db (qn ++ ":inputs") with
    | .error e => .error e
    | .ok ins =>
      match lrangeAll db (qn ++ ":outputs") with
      | .error e => .error e
      | .ok outs => .ok (replayLines qn ins outs))

/-! ### Web cache (`web.py`)

The web module uses its own Redis client with two key families, `count:<url>`
(touched only by `INCR`) and `cached:<url>` (touched only by `GET`/`SETEX`),
so the two families are modelled as separate fields.  Expiry is modelled by
storing the absolute deadline `now + ttl` with the value and treating the
entry as absent once `now` reaches the deadline; the network is an oracle
`String → String` standing for `requests.get(url).text`, and `netLog` records
every network fetch performed, in order. -/

/-- State of the web-cache module: the per-URL request counters, the cached
pages with their expiry deadlines, and the log of network fetches made. -/
structure WebState where
  counts : String → Nat
  cache : String → Option (String × Nat)
  netLog : List String

/-- The state with no counters, no cached pages and no network traffic. -/
def initWeb : WebState := ⟨fun _ => 0, fun _ => none, []⟩

/-- `_redis.get(f"cached:{url}")` at time `now`: the cached content while the
entry is live (`now` before its deadline), absent otherwise. -/
def cacheRead (st : WebState) (now : Nat) (url : String) : Option String :=
  match st.cache ("cached:" ++ url) with
  | some (c, deadline) => if now < deadline then some c else none
  | none => none

/-- The undecorated body of `get_page`: read the cache; a *truthy* cached
value (non-empty bytes) is returned directly; otherwise fetch over the
network, `SETEX` the content with a 10-unit expiry, and return it. -/
def get_page_body (st : WebState) (web : String → String) (now : Nat)
    (url : String) : WebState × String :=
  match cacheRead st now url with
  | some c =>
    if c = "" then
      let content := web url
      ({ st with
          cache := fun k =>
            if k = "cached:" ++ url then some (content, now + 10) else st.cache k,
          netLog := st.netLog ++ [url] }, content)
    else (st, c)
  | none =>
    let content := web url
    ({ st with
        cache := fun k =>
          if k = "cached:" ++ url then some (content, now + 10) else st.cache k,
        netLog := st.netLog ++ [url] }, content)

/-- `get_page` as exported: `count_requests` first increments
`count:<url>`, then runs the body. -/
def get_page (st : WebState) (web : String → String) (now : Nat)
    (url : String) : WebState × String :=
  get_page_body
    { st with
        counts := fun k =>
          if k = "count:" ++ url then st.counts k + 1 else st.counts k }
    web now url

/-! ### Helper lemmas: shapes of the instrumentation keys -/

/-- Shape of the counter key after `n` increments from a flushed database:
absent for `n = 0`, integer-encoded `n` afterwards. -/
def natShape (n : Nat) : Option RVal :=
  if n = 0 then none else some (.rint (n : Int))

/-- Shape of a history key holding the list `l`: absent while empty. -/
def listShape (l : List String) : Option RVal :=
  if l = [] then none else some (.rlist l)

theorem updateDB_self (db : RedisDB) (k : String) (v : RVal) :
    updateDB db k v k = some v := by
  simp [updateDB]

theorem updateDB_other (db : RedisDB) (k : String) (v : RVal) (x : String)
    (h : x ≠ k) : updateDB db k v x = db x := by
  simp [updateDB, h]

theorem rincr_shape (db : RedisDB) (k : String) (n : Nat)
    (h : db k = natShape n) :
    rincr db k = .ok (updateDB db k (.rint ((n : Int) + 1)), (n : Int) + 1) := by
  by_cases hn : n = 0
  · subst hn
    simp [natShape] at h
    simp [rincr, h]
  · simp [natShape, hn] at h
    simp [rincr, h]

theorem rpush_shape (db : RedisDB) (k : String) (l : List String) (v : String)
    (h : db k = listShape l) :
    rpush db k v = .ok (updateDB db k (.rlist (l ++ [v]))) := by
  by_cases hl : l = []
  · subst hl
    simp [listShape] at h
    simp [rpush, h]
  · simp [listShape, hl] at h
    simp [rpush, h]

theorem counterNat_shape (db : RedisDB) (n : Nat)
    (h : db storeQualname = natShape n) : counterNat db = n := by
  by_cases hn : n = 0
  · subst hn
    simp [natShape] at h
    simp [counterNat, h]
  · simp [natShape, hn] at h
    simp [counterNat, h]

theorem listLen_shape (db : RedisDB) (k : String) (l : List String)
    (h : db k = listShape l) : listLen db k = l.length := by
  by_cases hl : l = []
  · subst hl
    simp [listShape] at h
    simp [listLen, h]
  · simp [listShape, hl] at h
    simp [listLen, h]

theorem listAt_shape (db : RedisDB) (k : String) (l : List String)
    (h : db k = listShape l) : listAt db k = l := by
  by_cases hl : l = []
  · subst hl
    simp [listShape] at h
    simp [listAt, h]
  · simp [listShape, hl] at h
    simp [listAt, h]

theorem lrangeAll_shape (db : RedisDB) (k : String) (l : List String)
    (h : db k = listShape l) : lrangeAll db k = .ok l := by
  by_cases hl : l = []
  · subst hl
    simp [listShape] at h
    simp [lrangeAll, h]
  · simp [listShape, hl] at h
    simp [lrangeAll, h]

theorem qn_ne_ik : storeQualname ≠ inputsKey := by decide
theorem qn_ne_ok : storeQualname ≠ outputsKey := by decide
theorem ik_ne_ok : inputsKey ≠ outputsKey := by decide

theorem natShape_succ (n : Nat) :
    natShape (n + 1) = some (.rint ((n : Int) + 1)) := by
  simp [natShape]

theorem listShape_append (l : List String) (v : String) :
    listShape (l ++ [v]) = some (.rlist (l ++ [v])) := by
  simp [listShape]

/-- Full characterisation of one decorated `Cache.store` invocation on a
database whose three instrumentation keys are well shaped: the counter,
inputs and outputs keys after the call, the returned value, and the value
cell at the generated identifier. -/
theorem storeCall_shape (db : RedisDB) (n : Nat) (ins outs : List String)
    (c : Call)
    (hs : db storeQualname = natShape n)
    (hi : db inputsKey = listShape ins)
    (ho : db outputsKey = listShape outs)
    (hf : freshId c.uuid) :
    (storeCall db c).1 storeQualname =
      natShape (n + (if c.stop = .atIncr then 0 else 1)) ∧
    (storeCall db c).1 inputsKey =
      listShape (ins ++
        (if c.stop = .atIncr ∨ c.stop = .atPushInput then []
         else [strArgs c.data])) ∧
    (storeCall db c).1 outputsKey =
      listShape (outs ++ (if c.stop = .complete then [c.uuid] else [])) ∧
    (storeCall db c).2 =
      (if c.stop = .complete then .ok c.uuid else .error .storeUnavailable) ∧
    (storeCall db c).1 c.uuid =
      (if c.stop = .atPushOutput ∨ c.stop = .complete then
        some (.rstr (toBytes c.data)) else db c.uuid) := by
  obtain ⟨d, u, stop⟩ := c
  obtain ⟨hu1, hu2, hu3⟩ := hf
  simp only at hu1 hu2 hu3 ⊢
  have h1 := rincr_shape db storeQualname n hs
  have hIK1 : (updateDB db storeQualname (.rint ((n : Int) + 1))) inputsKey
      = listShape ins := by
    rw [updateDB_other _ _ _ _ (Ne.symm qn_ne_ik)]; exact hi
  have h2 := rpush_shape (updateDB db storeQualname (.rint ((n : Int) + 1)))
    inputsKey ins (strArgs d) hIK1
  set db1 := updateDB db storeQualname (.rint ((n : Int) + 1)) with hdb1
  set db2 := updateDB db1 inputsKey (.rlist (ins ++ [strArgs d])) with hdb2
  have hOK3 : (rset db2 u (toBytes d)) outputsKey = listShape outs := by
    rw [rset, updateDB_other _ _ _ _ (Ne.symm hu3), hdb2,
      updateDB_other _ _ _ _ (Ne.symm ik_ne_ok), hdb1,
      updateDB_other _ _ _ _ (Ne.symm qn_ne_ok)]
    exact ho
  have h3 := rpush_shape (rset db2 u (toBytes d)) outputsKey outs u hOK3
  cases stop
  case atIncr =>
    simp only [storeCall, if_pos rfl]
    refine ⟨?_, ?_, ?_, ?_, ?_⟩ <;>
      simp [hs, hi, ho, natShape, listShape]
  case atPushInput =>
    simp only [storeCall, h1]
    refine ⟨?_, ?_, ?_, ?_, ?_⟩ <;>
      simp [hdb1, updateDB, qn_ne_ik, Ne.symm qn_ne_ik, qn_ne_ok,
        Ne.symm qn_ne_ok, ik_ne_ok, Ne.symm ik_ne_ok, hu1, Ne.symm hu1,
        hu2, Ne.symm hu2, hu3, Ne.symm hu3, hi, ho, natShape_succ]
  case atSet =>
    simp only [storeCall, h1, h2]
    refine ⟨?_, ?_, ?_, ?_, ?_⟩ <;>
      simp [hdb2, hdb1, updateDB, qn_ne_ik, Ne.symm qn_ne_ik, qn_ne_ok,
        Ne.symm qn_ne_ok, ik_ne_ok, Ne.symm ik_ne_ok, hu1, Ne.symm hu1,
        hu2, Ne.symm hu2, hu3, Ne.symm hu3, hi, ho, natShape_succ,
        listShape_append]
  case atPushOutput =>
    simp only [storeCall, h1, h2]
    refine ⟨?_, ?_, ?_, ?_, ?_⟩ <;>
      simp [rset, hdb2, hdb1, updateDB, qn_ne_ik, Ne.symm qn_ne_ik, qn_ne_ok,
        Ne.symm qn_ne_ok, ik_ne_ok, Ne.symm ik_ne_ok, hu1, Ne.symm hu1,
        hu2, Ne.symm hu2, hu3, Ne.symm hu3, hi, ho, natShape_succ,
        listShape_append]
  case complete =>
    simp only [storeCall, h1, h2, h3]
    refine ⟨?_, ?_, ?_, ?_, ?_⟩ <;>
      simp [rset, hdb2, hdb1, updateDB, qn_ne_ik, Ne.symm qn_ne_ik, qn_ne_ok,
        Ne.symm qn_ne_ok, ik_ne_ok, Ne.symm ik_ne_ok, hu1, Ne.symm hu1,
        hu2, Ne.symm hu2, hu3, Ne.symm hu3, hi, ho, natShape_succ,
        listShape_append]

theorem rincr_frame (db : RedisDB) (k x : String) (h : x ≠ k)
    (db' : RedisDB) (m : Int) (he : rincr db k = .ok (db', m)) :
    db' x = db x := by
  unfold rincr at he
  split at he
  · cases he; exact updateDB_other _ _ _ _ h
  · cases he; exact updateDB_other _ _ _ _ h
  · split at he
    · cases he; exact updateDB_other _ _ _ _ h
    · cases he
  · cases he

theorem rpush_frame (db : RedisDB) (k v x : String) (h : x ≠ k)
    (db' : RedisDB) (he : rpush db k v = .ok db') :
    db' x = db x := by
  unfold rpush at he
  split at he
  · cases he; exact updateDB_other _ _ _ _ h
  · cases he; exact updateDB_other _ _ _ _ h
  · cases he
  · cases he

/-- A decorated `Cache.store` invocation touches no key other than the
counter key, the two history keys, and the generated identifier — whatever
the database looks like and wherever the call stops. -/
theorem storeCall_frame (db : RedisDB) (c : Call) (k : String)
    (h1 : k ≠ storeQualname) (h2 : k ≠ inputsKey) (h3 : k ≠ outputsKey)
    (h4 : k ≠ c.uuid) :
    (storeCall db c).1 k = db k := by
  obtain ⟨d, u, stop⟩ := c
  simp only at h4
  cases stop
  case atIncr => simp [storeCall]
  case atPushInput =>
    simp only [storeCall]
    cases hr : rincr db storeQualname with
    | error e => simp
    | ok p =>
      obtain ⟨db1, m⟩ := p
      simpa using rincr_frame db storeQualname k h1 db1 m hr
  case atSet =>
    simp only [storeCall]
    cases hr : rincr db storeQualname with
    | error e => simp
    | ok p =>
      obtain ⟨db1, m⟩ := p
      have f1 := rincr_frame db storeQualname k h1 db1 m hr
      cases hp : rpush db1 inputsKey (strArgs d) with
      | error e => simpa only [hp] using f1
      | ok db2 =>
        have f2 := rpush_frame db1 inputsKey (strArgs d) k h2 db2 hp
        simp only [hp]
        simp [f2, f1]
  case atPushOutput =>
    simp only [storeCall]
    cases hr : rincr db storeQualname with
    | error e => simp
    | ok p =>
      obtain ⟨db1, m⟩ := p
      have f1 := rincr_frame db storeQualname k h1 db1 m hr
      cases hp : rpush db1 inputsKey (strArgs d) with
      | error e => simpa only [hp] using f1
      | ok db2 =>
        have f2 := rpush_frame db1 inputsKey (strArgs d) k h2 db2 hp
        simp only [hp]
        simp [rset, updateDB_other _ _ _ _ h4, f2, f1]
  case complete =>
    simp only [storeCall]
    cases hr : rincr db storeQualname with
    | error e => simp
    | ok p =>
      obtain ⟨db1, m⟩ := p
      have f1 := rincr_frame db storeQualname k h1 db1 m hr
      cases hp : rpush db1 inputsKey (strArgs d) with
      | error e => simpa only [hp] using f1
      | ok db2 =>
        have f2 := rpush_frame db1 inputsKey (strArgs d) k h2 db2 hp
        have f3 : (rset db2 u (toBytes d)) k = db k := by
          rw [rset, updateDB_other _ _ _ _ h4, f2, f1]
        cases hq : rpush (rset db2 u (toBytes d)) outputsKey u with
        | error e => simpa only [hp, hq] using f3
        | ok db4 =>
          have f4 := rpush_frame (rset db2 u (toBytes d)) outputsKey u k h3 db4 hq
          simp only [hp, hq]
          simp [f4, f3]

/-- Keys outside the instrumentation keys and the identifiers of a call
sequence are untouched by the whole sequence. -/
theorem runCalls_frame (cs : List Call) (db : RedisDB) (k : String)
    (h1 : k ≠ storeQualname) (h2 : k ≠ inputsKey) (h3 : k ≠ outputsKey)
    (h4 : ∀ c ∈ cs, k ≠ c.uuid) :
    runCalls db cs k = db k := by
  induction cs generalizing db with
  | nil => rfl
  | cons c cs ih =>
    rw [runCalls, ih _ (fun x hx => h4 x (List.mem_cons_of_mem c hx)),
      storeCall_frame db c k h1 h2 h3 (h4 c (List.mem_cons_self c cs))]

/-- Number of calls in a sequence whose counter `INCR` round-trip succeeds
(every call except those stopped at the increment itself). -/
def countIncr : List Call → Nat
  | [] => 0
  | c :: cs => (if c.stop = .atIncr then 0 else 1) + countIncr cs

/-- The input entries a call sequence appends: one `str(args)` per call that
reaches the inputs `RPUSH`. -/
def expIns : List Call → List String
  | [] => []
  | c :: cs =>
    (if c.stop = .atIncr ∨ c.stop = .atPushInput then []
     else [strArgs c.data]) ++ expIns cs

/-- The output entries a call sequence appends: one identifier per call that
completes. -/
def expOuts : List Call → List String
  | [] => []
  | c :: cs => (if c.stop = .complete then [c.uuid] else []) ++ expOuts cs

/-- State of the three instrumentation keys after a call sequence: counter,
inputs and outputs evolve by `countIncr`, `expIns` and `expOuts`. -/
theorem runCalls_shape (cs : List Call) (db : RedisDB) (n : Nat)
    (ins outs : List String)
    (hfr : ∀ c ∈ cs, freshId c.uuid)
    (hs : db storeQualname = natShape n)
    (hi : db inputsKey = listShape ins)
    (ho : db outputsKey = listShape outs) :
    runCalls db cs storeQualname = natShape (n + countIncr cs) ∧
    runCalls db cs inputsKey = listShape (ins ++ expIns cs) ∧
    runCalls db cs outputsKey = listShape (outs ++ expOuts cs) := by
  induction cs generalizing db n ins outs with
  | nil => simpa [runCalls, countIncr, expIns, expOuts] using ⟨hs, hi, ho⟩
  | cons c cs ih =>
    obtain ⟨g1, g2, g3, _, _⟩ :=
      storeCall_shape db n ins outs c hs hi ho (hfr c (List.mem_cons_self c cs))
    obtain ⟨r1, r2, r3⟩ := ih (storeCall db c).1
      (n + (if c.stop = .atIncr then 0 else 1))
      (ins ++ (if c.stop = .atIncr ∨ c.stop = .atPushInput then []
        else [strArgs c.data]))
      (outs ++ (if c.stop = .complete then [c.uuid] else []))
      (fun x hx => hfr x (List.mem_cons_of_mem c hx)) g1 g2 g3
    refine ⟨?_, ?_, ?_⟩
    · rw [runCalls, r1, countIncr, Nat.add_assoc]
    · rw [runCalls, r2, expIns, List.append_assoc]
    · rw [runCalls, r3, expOuts, List.append_assoc]

theorem countIncr_all (cs : List Call) (h : ∀ c ∈ cs, c.stop ≠ .atIncr) :
    countIncr cs = cs.length := by
  induction cs with
  | nil => rfl
  | cons c cs ih =>
    rw [countIncr, if_neg (h c (List.mem_cons_self c cs)),
      ih (fun x hx => h x (List.mem_cons_of_mem c hx)), List.length_cons,
      Nat.add_comm]

theorem expIns_all_complete (cs : List Call)
    (h : ∀ c ∈ cs, c.stop = .complete) :
    expIns cs = cs.map (fun c => strArgs c.data) := by
  induction cs with
  | nil => rfl
  | cons c cs ih =>
    rw [expIns, if_neg (by rw [h c (List.mem_cons_self c cs)]; simp),
      ih (fun x hx => h x (List.mem_cons_of_mem c hx)), List.map_cons,
      List.singleton_append]

theorem expOuts_all_complete (cs : List Call)
    (h : ∀ c ∈ cs, c.stop = .complete) :
    expOuts cs = cs.map (fun c => c.uuid) := by
  induction cs with
  | nil => rfl
  | cons c cs ih =>
    rw [expOuts, if_pos (h c (List.mem_cons_self c cs)),
      ih (fun x hx => h x (List.mem_cons_of_mem c hx)), List.map_cons,
      List.singleton_append]

theorem expOuts_len_le (cs : List Call) :
    (expOuts cs).length ≤ (expIns cs).length := by
  induction cs with
  | nil => exact Nat.le_refl 0
  | cons c cs ih =>
    rw [expOuts, expIns, List.length_append, List.length_append]
    cases hc : c.stop <;> simp <;> omega

theorem expIns_len_le (cs : List Call) :
    (expIns cs).length ≤ countIncr cs := by
  induction cs with
  | nil => exact Nat.le_refl 0
  | cons c cs ih =>
    rw [expIns, countIncr, List.length_append]
    cases hc : c.stop <;> simp <;> omega

/-! ### Claims -/

/-- C1 (counterexample): the round-trip identity fails as stated.  Storing
the Python string "foo" and reading it back with no converter does not
return the string "foo": it returns the *bytes* b"foo" (serialisation is
not undone), and in Python `b"foo" == "foo"` is false. -/
theorem c1_counterexample :
    Cache.get (storeCall flushed ⟨PyVal.vstr "foo", "k1", .complete⟩).1
        "k1" none ≠ .ok (some (.vstr "foo")) ∧
    Cache.get (storeCall flushed ⟨PyVal.vstr "foo", "k1", .complete⟩).1
        "k1" none = .ok (some (.vbytes "foo")) := by
  decide

/-- C1 (amended): for every value v stored by a completing `store`,
`get` on the returned identifier with no converter returns the byte
serialisation of v as a bytes value; this equals v exactly when v is itself
a bytes value (for str/int/float the raw bytes come back, not v). -/
theorem c1_store_get_returns_bytes (db : RedisDB) (n : Nat)
    (ins outs : List String) (c : Call)
    (hs : db storeQualname = natShape n) (hi : db inputsKey = listShape ins)
    (ho : db outputsKey = listShape outs) (hf : freshId c.uuid)
    (hc : c.stop = .complete) :
    (storeCall db c).2 = .ok c.uuid ∧
    Cache.get (storeCall db c).1 c.uuid none =
      .ok (some (.vbytes (toBytes c.data))) ∧
    ((∃ b, c.data = .vbytes b) ↔ PyVal.vbytes (toBytes c.data) = c.data) := by
  obtain ⟨g1, g2, g3, g4, g5⟩ := storeCall_shape db n ins outs c hs hi ho hf
  refine ⟨by rw [g4, if_pos hc], ?_, ?_⟩
  · have hv : (storeCall db c).1 c.uuid = some (.rstr (toBytes c.data)) := by
      rw [g5, if_pos (Or.inr hc)]
    simp [Cache.get, rget, hv]
  · constructor
    · rintro ⟨b, hb⟩
      rw [hb]
      rfl
    · intro h
      cases hd : c.data with
      | vbytes b => exact ⟨b, rfl⟩
      | vstr s => rw [hd] at h; simp [toBytes] at h
      | vint m => rw [hd] at h; simp [toBytes] at h
      | vfloat f => rw [hd] at h; simp [toBytes] at h

theorem c1_store_get_returns_bytes_witness :
    Cache.get (storeCall flushed ⟨PyVal.vbytes "foo", "k1", .complete⟩).1
        "k1" none = .ok (some (.vbytes (toBytes (PyVal.vbytes "foo")))) :=
  (c1_store_get_returns_bytes flushed 0 [] []
    ⟨PyVal.vbytes "foo", "k1", .complete⟩ rfl rfl rfl (by decide) rfl).2.1

/-- C2 (counterexample): the inputs and outputs lists are not always the
same length.  A single `store` call whose body fails (the `SET` round-trip
raises) appends its input entry but no output entry: lengths 1 and 0. -/
theorem c2_counterexample :
    listLen (runCalls flushed [⟨PyVal.vstr "a", "k1", .atSet⟩]) inputsKey = 1 ∧
    listLen (runCalls flushed [⟨PyVal.vstr "a", "k1", .atSet⟩]) outputsKey
      = 0 := by
  decide

/-- C2 (amended): for sequences in which every wrapped call succeeds, the
inputs and outputs lists have length N, are append-only and index-aligned:
the k-th input entry is the k-th call's `str(args)` and the k-th output
entry is the k-th call's returned identifier.  (A failing wrapped call
appends its input but no output, breaking the alignment.) -/
theorem c2_history_aligned_when_all_succeed (cs : List Call)
    (hfr : ∀ c ∈ cs, freshId c.uuid) (hall : ∀ c ∈ cs, c.stop = .complete) :
    listAt (runCalls flushed cs) inputsKey
      = cs.map (fun c => strArgs c.data) ∧
    listAt (runCalls flushed cs) outputsKey = cs.map (fun c => c.uuid) ∧
    listLen (runCalls flushed cs) inputsKey = cs.length ∧
    listLen (runCalls flushed cs) outputsKey = cs.length := by
  obtain ⟨r1, r2, r3⟩ := runCalls_shape cs flushed 0 [] [] hfr rfl rfl rfl
  rw [List.nil_append] at r2 r3
  have e1 := expIns_all_complete cs hall
  have e2 := expOuts_all_complete cs hall
  refine ⟨?_, ?_, ?_, ?_⟩
  · rw [listAt_shape _ _ _ r2, e1]
  · rw [listAt_shape _ _ _ r3, e2]
  · rw [listLen_shape _ _ _ r2, e1, List.length_map]
  · rw [listLen_shape _ _ _ r3, e2, List.length_map]

theorem c2_history_aligned_when_all_succeed_witness :
    listAt (runCalls flushed
        [⟨PyVal.vstr "a", "k1", .complete⟩, ⟨PyVal.vint 7, "k2", .complete⟩])
      inputsKey
      = ([⟨PyVal.vstr "a", "k1", .complete⟩,
          ⟨PyVal.vint 7, "k2", .complete⟩] : List Call).map
            (fun c => strArgs c.data) :=
  (c2_history_aligned_when_all_succeed
    [⟨PyVal.vstr "a", "k1", .complete⟩, ⟨PyVal.vint 7, "k2", .complete⟩]
    (by decide) (by decide)).1

/-- C3: the invocation counter is invocation-count-exact.  For any sequence
of N invocations whose counter increment reaches the store, the counter
equals N whether or not the wrapped bodies succeed; each single call first
bumps the counter to n+1, returns the wrapped result unchanged on success,
and propagates the failure unchanged (counter already bumped) otherwise. -/
theorem c3_count_calls_exact :
    (∀ cs : List Call, (∀ c ∈ cs, freshId c.uuid) →
      (∀ c ∈ cs, c.stop ≠ .atIncr) →
      counterNat (runCalls flushed cs) = cs.length) ∧
    (∀ (db : RedisDB) (n : Nat) (ins outs : List String) (c : Call),
      db storeQualname = natShape n → db inputsKey = listShape ins →
      db outputsKey = listShape outs → freshId c.uuid → c.stop ≠ .atIncr →
      (storeCall db c).1 storeQualname = some (.rint ((n : Int) + 1)) ∧
      (c.stop = .complete → (storeCall db c).2 = .ok c.uuid) ∧
      (c.stop ≠ .complete →
        (storeCall db c).2 = .error .storeUnavailable)) := by
  constructor
  · intro cs hfr hni
    obtain ⟨r1, _, _⟩ := runCalls_shape cs flushed 0 [] [] hfr rfl rfl rfl
    rw [counterNat_shape _ _ r1, Nat.zero_add, countIncr_all cs hni]
  · intro db n ins outs c hs hi ho hf hni
    obtain ⟨g1, _, _, g4, _⟩ := storeCall_shape db n ins outs c hs hi ho hf
    refine ⟨?_, ?_, ?_⟩
    · rw [g1, if_neg hni, natShape_succ]
    · intro hc; rw [g4, if_pos hc]
    · intro hc; rw [g4, if_neg hc]

theorem c3_count_calls_exact_witness :
    counterNat (runCalls flushed
      [⟨PyVal.vstr "a", "k1", .complete⟩, ⟨PyVal.vstr "b", "k2", .atSet⟩])
      = 2 :=
  c3_count_calls_exact.1
    [⟨PyVal.vstr "a", "k1", .complete⟩, ⟨PyVal.vstr "b", "k2", .atSet⟩]
    (by decide) (by decide)

/-- C4 (counterexample): the operation identity is not the string "store".
After one `store` call nothing lives at key "store" or "store:inputs"; the
counter lives at "Cache.store" (the method's qualified name). -/
theorem c4_counterexample :
    runCalls flushed [⟨PyVal.vstr "a", "k1", .complete⟩] "store" = none ∧
    runCalls flushed [⟨PyVal.vstr "a", "k1", .complete⟩] "store:inputs"
      = none ∧
    runCalls flushed [⟨PyVal.vstr "a", "k1", .complete⟩] "store:outputs"
      = none ∧
    runCalls flushed [⟨PyVal.vstr "a", "k1", .complete⟩] storeQualname
      = some (.rint 1) := by
  decide

/-- C4 (amended): the operation identity of `store` is its qualified name
"Cache.store"; that identity string is the counter key and the prefix of
the two history keys "Cache.store:inputs" and "Cache.store:outputs", and a
store call increments the counter there and appends to those lists. -/
theorem c4_identity_is_qualname :
    storeQualname = "Cache.store" ∧
    inputsKey = storeQualname ++ ":inputs" ∧
    outputsKey = storeQualname ++ ":outputs" ∧
    runCalls flushed [⟨PyVal.vstr "a", "k1", .complete⟩] storeQualname
      = some (.rint 1) ∧
    listAt (runCalls flushed [⟨PyVal.vstr "a", "k1", .complete⟩]) inputsKey
      = [strArgs (PyVal.vstr "a")] ∧
    listAt (runCalls flushed [⟨PyVal.vstr "a", "k1", .complete⟩]) outputsKey
      = ["k1"] := by
  decide

/-- C5 (counterexample): on a length mismatch `replay` emits no
data-integrity warning.  With one input entry and no output entry the full
rendered output is exactly the summary line — nothing but the summary and
the (zero) aligned pairs, hence no warning of any kind. -/
theorem c5_counterexample :
    listLen (runCalls flushed [⟨PyVal.vstr "a", "k1", .atSet⟩]) inputsKey
      = 1 ∧
    listLen (runCalls flushed [⟨PyVal.vstr "a", "k1", .atSet⟩]) outputsKey
      = 0 ∧
    (replay (runCalls flushed [⟨PyVal.vstr "a", "k1", .atSet⟩])
        storeQualname).2
      = .ok ["Cache.store was called 1 times:"] := by
  decide

/-- C5 (amended): `replay` reads the two history lists in full, prints a
summary line giving `len(inputs)` as the total call count, then one line
per `zip`-aligned pair in call order, silently truncating to the shorter
list on a mismatch (no length check and no warning); it mutates no store
state, so a second call produces identical output. -/
theorem c5_replay_renders_zip (db : RedisDB) (qn : String)
    (ins outs : List String)
    (h1 : lrangeAll db (qn ++ ":inputs") = .ok ins)
    (h2 : lrangeAll db (qn ++ ":outputs") = .ok outs) :
    (replay db qn).2 = .ok (replayLines qn ins outs) ∧
    (replay db qn).1 = db ∧
    (replayLines qn ins outs).length = 1 + min ins.length outs.length ∧
    (replayLines qn ins outs).headI
      = qn ++ " was called " ++ toString ins.length ++ " times:" ∧
    (replay (replay db qn).1 qn).2 = (replay db qn).2 := by
  refine ⟨?_, rfl, ?_, rfl, rfl⟩
  · simp [replay, h1, h2]
  · simp [replayLines]
    omega

theorem c5_replay_renders_zip_witness :
    (replay (runCalls flushed [⟨PyVal.vstr "a", "k1", .complete⟩])
        storeQualname).2
      = .ok (replayLines storeQualname [strArgs (PyVal.vstr "a")] ["k1"]) :=
  (c5_replay_renders_zip (runCalls flushed [⟨PyVal.vstr "a", "k1", .complete⟩])
    storeQualname [strArgs (PyVal.vstr "a")] ["k1"]
    (by decide) (by decide)).1

/-- C7: `get` on an absent key returns absent without ever applying the
converter; on a present key whose converter fails, the failure propagates
as an error, which is distinct from the absent result and never masked as
absence; in particular `get_int` on non-numeric bytes raises. -/
theorem c7_converter_failure_propagates (db : RedisDB) (key : String) :
    (db key = none → ∀ f, Cache.get db key (some f) = .ok none) ∧
    (∀ s f e, db key = some (.rstr s) → f s = .error e →
      Cache.get db key (some f) = .error e) ∧
    (∀ e : PyErr, (Except.error e : Except PyErr (Option PyVal)) ≠ .ok none) ∧
    (db key = some (.rstr "foo") →
      Cache.get_int db key = .error .valueError) := by
  refine ⟨?_, ?_, ?_, ?_⟩
  · intro h f
    simp [Cache.get, rget, h]
  · intro s f e h hf
    simp [Cache.get, rget, h, hf]
  · intro e h
    exact Except.noConfusion h
  · intro h
    have hp : parsePyInt "foo" = none := by decide
    simp [Cache.get_int, Cache.get, rget, h, intConv, hp]

theorem c7_converter_failure_propagates_witness :
    Cache.get_int (rset flushed "k" "foo") "k" = .error .valueError :=
  (c7_converter_failure_propagates (rset flushed "k" "foo") "k").2.2.2
    (by decide)

/-- C8: with both decorators on `store`, the counter increment of each
invocation happens before either history append, so along every (possibly
failing) call sequence the counter bounds the inputs length which bounds
the outputs length; and a call failing right after its increment has
bumped the counter while leaving both lists untouched. -/
theorem c8_counter_bounds_history :
    (∀ cs : List Call, (∀ c ∈ cs, freshId c.uuid) →
      listLen (runCalls flushed cs) outputsKey
          ≤ listLen (runCalls flushed cs) inputsKey ∧
      listLen (runCalls flushed cs) inputsKey
          ≤ counterNat (runCalls flushed cs)) ∧
    (∀ (db : RedisDB) (n : Nat) (ins outs : List String) (c : Call),
      db storeQualname = natShape n → db inputsKey = listShape ins →
      db outputsKey = listShape outs → freshId c.uuid →
      c.stop = .atPushInput →
      (storeCall db c).1 storeQualname = some (.rint ((n : Int) + 1)) ∧
      (storeCall db c).1 inputsKey = db inputsKey ∧
      (storeCall db c).1 outputsKey = db outputsKey) := by
  constructor
  · intro cs hfr
    obtain ⟨r1, r2, r3⟩ := runCalls_shape cs flushed 0 [] [] hfr rfl rfl rfl
    rw [counterNat_shape _ _ r1, listLen_shape _ _ _ r2,
      listLen_shape _ _ _ r3, List.nil_append, List.nil_append,
      Nat.zero_add]
    exact ⟨expOuts_len_le cs, expIns_len_le cs⟩
  · intro db n ins outs c hs hi ho hf hc
    obtain ⟨g1, g2, g3, _, _⟩ := storeCall_shape db n ins outs c hs hi ho hf
    refine ⟨?_, ?_, ?_⟩
    · rw [g1, if_neg (by rw [hc]; decide), natShape_succ]
    · rw [g2, if_pos (Or.inr hc), List.append_nil, hi]
    · rw [g3, if_neg (by rw [hc]; decide), List.append_nil, ho]

theorem c8_counter_bounds_history_witness :
    listLen (runCalls flushed
        [⟨PyVal.vstr "a", "k1", .atSet⟩, ⟨PyVal.vstr "b", "k2", .complete⟩])
      inputsKey
      ≤ counterNat (runCalls flushed
        [⟨PyVal.vstr "a", "k1", .atSet⟩,
          ⟨PyVal.vstr "b", "k2", .complete⟩]) :=
  (c8_counter_bounds_history.1
    [⟨PyVal.vstr "a", "k1", .atSet⟩, ⟨PyVal.vstr "b", "k2", .complete⟩]
    (by decide)).2

/-- C9: any identifier that no `store` call generated and that is none of
the instrumentation keys is absent after an arbitrary call sequence from a
flushed database, and `get` on it returns absent — an optional result, not
an error. -/
theorem c9_get_unstored_absent (cs : List Call) (key : String)
    (h1 : key ≠ storeQualname) (h2 : key ≠ inputsKey)
    (h3 : key ≠ outputsKey) (h4 : ∀ c ∈ cs, key ≠ c.uuid) :
    runCalls flushed cs key = none ∧
    Cache.get (runCalls flushed cs) key none = .ok none := by
  have hf := runCalls_frame cs flushed key h1 h2 h3 h4
  refine ⟨?_, ?_⟩
  · rw [hf]; rfl
  · simp [Cache.get, rget, hf, flushed]

theorem c9_get_unstored_absent_witness :
    Cache.get (runCalls flushed [⟨PyVal.vstr "a", "k1", .complete⟩])
      "missing" none = .ok none :=
  (c9_get_unstored_absent [⟨PyVal.vstr "a", "k1", .complete⟩] "missing"
    (by decide) (by decide) (by decide) (by decide)).2

/-! ### Web cache lemmas and claims -/

theorem get_page_body_counts (st : WebState) (web : String → String)
    (now : Nat) (url : String) :
    (get_page_body st web now url).1.counts = st.counts := by
  unfold get_page_body
  cases h : cacheRead st now url with
  | none => rfl
  | some c =>
    by_cases hc : c = "" <;> simp [hc]

/-- Bumping the request counter does not change the cache or the network
log, so the cache read of the wrapped call sees the caller's state. -/
theorem cacheRead_counts (st : WebState) (f : String → Nat) (now : Nat)
    (url : String) :
    cacheRead { st with counts := f } now url = cacheRead st now url := rfl

theorem get_page_counts (st : WebState) (web : String → String) (now : Nat)
    (url : String) :
    (get_page st web now url).1.counts ("count:" ++ url)
      = st.counts ("count:" ++ url) + 1 := by
  unfold get_page
  rw [congrFun (get_page_body_counts _ web now url) ("count:" ++ url)]
  simp

/-- C6 (counterexample): a live cached entry does not guarantee a cache
hit.  After fetching a URL whose content is empty, a live entry exists at
time 1 (expiry 10), yet the second call still goes to the network (two
entries in the network log), while the access counter reads 2. -/
theorem c6_counterexample :
    cacheRead ((get_page initWeb (fun _ => "") 0 "u").1) 1 "u" = some "" ∧
    ((get_page ((get_page initWeb (fun _ => "") 0 "u").1)
        (fun _ => "") 1 "u").1).netLog = ["u", "u"] ∧
    ((get_page ((get_page initWeb (fun _ => "") 0 "u").1)
        (fun _ => "") 1 "u").1).counts ("count:" ++ "u") = 2 := by
  decide

/-- C6 (amended): every `get_page` call increments the URL's access counter
unconditionally before the cache check (so two calls from a zero counter
always leave it at 2); a live cached entry with *non-empty* content is
returned directly with no network call and no cache write; otherwise
(absent, expired, or empty content) the content is fetched over the
network, stored with expiry deadline now + 10, and returned. -/
theorem c6_get_page_spec :
    (∀ (st : WebState) (web : String → String) (now : Nat) (url : String),
      (get_page st web now url).1.counts ("count:" ++ url)
        = st.counts ("count:" ++ url) + 1 ∧
      (∀ c, cacheRead st now url = some c → c ≠ "" →
        (get_page st web now url).2 = c ∧
        (get_page st web now url).1.netLog = st.netLog ∧
        (get_page st web now url).1.cache = st.cache) ∧
      ((cacheRead st now url = none ∨ cacheRead st now url = some "") →
        (get_page st web now url).2 = web url ∧
        (get_page st web now url).1.netLog = st.netLog ++ [url] ∧
        (get_page st web now url).1.cache ("cached:" ++ url)
          = some (web url, now + 10))) ∧
    (∀ (st : WebState) (web web2 : String → String) (now now2 : Nat)
        (url : String),
      st.counts ("count:" ++ url) = 0 →
      ((get_page ((get_page st web now url).1) web2 now2 url).1).counts
        ("count:" ++ url) = 2) := by
  constructor
  · intro st web now url
    refine ⟨get_page_counts st web now url, ?_, ?_⟩
    · intro c hcr hc
      unfold get_page get_page_body
      rw [cacheRead_counts, hcr]
      simp [hc]
    · intro hcr
      unfold get_page get_page_body
      rcases hcr with hcr | hcr <;> rw [cacheRead_counts, hcr] <;> simp
  · intro st web web2 now now2 url h0
    rw [get_page_counts, get_page_counts, h0]

theorem c6_get_page_spec_witness :
    ((get_page ((get_page initWeb (fun _ => "page") 0 "u").1)
        (fun _ => "page") 1 "u").1).counts ("count:" ++ "u") = 2 :=
  c6_get_page_spec.2 initWeb (fun _ => "page") (fun _ => "page") 0 1 "u" rfl

/-- C10: if the fetched content of a URL is empty, `get_page` stores it in
the cache (with the normal 10-unit expiry) but never serves it from the
cache: the truthiness check treats a live empty entry as a miss, so every
later call within the expiry window still performs a network fetch while
still incrementing the access counter. -/
theorem c10_empty_content_never_served :
    (∀ (st : WebState) (web : String → String) (now : Nat) (url : String),
      web url = "" →
      (cacheRead st now url = none ∨ cacheRead st now url = some "") →
      (get_page st web now url).1.cache ("cached:" ++ url)
        = some ("", now + 10) ∧
      (get_page st web now url).2 = "") ∧
    (∀ (st : WebState) (web : String → String) (now : Nat) (url : String),
      cacheRead st now url = some "" →
      (get_page st web now url).1.netLog = st.netLog ++ [url] ∧
      (get_page st web now url).2 = web url ∧
      (get_page st web now url).1.counts ("count:" ++ url)
        = st.counts ("count:" ++ url) + 1) := by
  constructor
  · intro st web now url hw hcr
    unfold get_page get_page_body
    rcases hcr with hcr | hcr <;> rw [cacheRead_counts, hcr] <;> simp [hw]
  · intro st web now url hcr
    refine ⟨?_, ?_, get_page_counts st web now url⟩ <;>
      · unfold get_page get_page_body
        rw [cacheRead_counts, hcr]
        simp

theorem c10_empty_content_never_served_witness :
    (get_page ((get_page initWeb (fun _ => "") 0 "u").1)
        (fun _ => "live") 1 "u").1.netLog = ["u"] ++ ["u"] :=
  (c10_empty_content_never_served.2 ((get_page initWeb (fun _ => "") 0 "u").1)
    (fun _ => "live") 1 "u" (by decide)).1
